import Mathlib

/-!
Verification development for the AI Generation Gateway of the S-ACM academic
content portal (`apps/ai_features/services.py` and `apps/ai_features/models.py`).
Python text is embedded as `List Char`; Python `len`, slicing, `split`,
`strip` and string truthiness are modelled by executable Lean functions below.
-/

set_option autoImplicit false

namespace SACM

/-- Shorthand turning a Lean string literal into the `List Char` representation
used for all embedded Python strings. -/
def lit (s : String) : List Char := s.data

/-- Decidable equality of `Except` values, used to evaluate concrete gateway
outcomes. -/
instance {ε α : Type} [DecidableEq ε] [DecidableEq α] :
    DecidableEq (Except ε α) := fun x y =>
  match x, y with
  | .ok a, .ok b =>
    match decEq a b with
    | .isTrue h => .isTrue (h ▸ rfl)
    | .isFalse h => .isFalse fun he => h (Except.ok.inj he)
  | .error a, .error b =>
    match decEq a b with
    | .isTrue h => .isTrue (h ▸ rfl)
    | .isFalse h => .isFalse fun he => h (Except.error.inj he)
  | .ok _, .error _ => .isFalse fun he => Except.noConfusion he
  | .error _, .ok _ => .isFalse fun he => Except.noConfusion he

/-- The whitespace characters removed by Python `str.strip()` (and collapsed by
`str.split()` with no argument). -/
def pyWhitespace (c : Char) : Bool :=
  c = ' ' || c = '\t' || c = '\n' || c = '\r' || c = '\x0b' || c = '\x0c'

/-- Python `s.strip()`: drop leading and trailing whitespace. -/
def stripChars (s : List Char) : List Char :=
  ((s.dropWhile pyWhitespace).reverse.dropWhile pyWhitespace).reverse

/-- Python `s[-n:]` for a nonnegative `n`: for `n = 0` this is the whole
string (`s[-0:] = s[0:]`), otherwise the last `min n (len s)` characters. -/
def sliceFromNeg (n : Nat) (s : List Char) : List Char :=
  if n = 0 then s else s.drop (s.length - n)

/-- Index of the first occurrence of `sep` in `s` (`str.find` for a nonempty
needle), as an `Option`. -/
def findSepIdx (sep : List Char) : List Char → Option Nat
  | [] => none
  | c :: rest =>
    if sep.isPrefixOf (c :: rest) then some 0
    else (findSepIdx sep rest).map (· + 1)

/-- Fuel-driven core of Python `s.split(sep)` for a nonempty separator.  Each
step consumes at least one character, so fuel `s.length` (supplied by
`pySplit`) is always sufficient and the fuel-exhausted branch is unreachable
for nonempty separators. -/
def pySplitGo (sep : List Char) : Nat → List Char → List (List Char)
  | 0, s => [s]
  | fuel + 1, s =>
    match findSepIdx sep s with
    | none => [s]
    | some i => s.take i :: pySplitGo sep fuel (s.drop (i + sep.length))

/-- Python `s.split(sep)` for a nonempty separator `sep`. -/
def pySplit (sep s : List Char) : List (List Char) :=
  pySplitGo sep s.length s

/-- Python `s.split()` (no argument): maximal runs of non-whitespace, never
producing empty words. -/
def pyWordsAux : List Char → List Char → List (List Char)
  | [], acc => if acc = [] then [] else [acc.reverse]
  | c :: rest, acc =>
    if pyWhitespace c then
      if acc = [] then pyWordsAux rest [] else acc.reverse :: pyWordsAux rest []
    else pyWordsAux rest (c :: acc)

/-- Python `s.split()` with no argument. -/
def pyWords (s : List Char) : List (List Char) := pyWordsAux s []

/-- Python `str(n)` for a nonnegative integer, as a character list. -/
def natChars (n : Nat) : List Char := (toString n).data

/-- Python `s.lower()` (ASCII-relevant part used by the error classifiers). -/
def lowerChars (s : List Char) : List Char := s.map Char.toLower

/-- Python substring containment `needle in hay`. -/
def hasInfix (needle : List Char) : List Char → Bool
  | [] => needle.isEmpty
  | c :: rest => needle.isPrefixOf (c :: rest) || hasInfix needle rest

/-- Python `kw in str(e).lower()` for an (already lowercase) keyword `kw`. -/
def containsKw (msg : String) (kw : String) : Bool :=
  hasInfix (lit kw) (lowerChars msg.data)

/-! ## SmartChunker (`services.py`, `SmartChunker`)

`chunk_size` and `overlap` come from `AIConfiguration` (DB) or the fallback
constants; both are passed explicitly here. -/

/-- Fallback chunk size used when the DB configuration is unavailable. -/
def FALLBACK_CHUNK_SIZE : Nat := 30000

/-- Fallback chunk overlap used when the DB configuration is unavailable. -/
def FALLBACK_CHUNK_OVERLAP : Nat := 500

/-- The eight sentence separators of `SmartChunker._split_by_sentences`. -/
def sentenceSeparators : List (List Char) :=
  [lit ". ", lit ".\n", lit "。", lit "؟ ", lit "? ", lit "! ", lit "！ ", lit ".\t"]

/-- Inner part-marking loop of `_split_by_sentences`: every part except the
last gets `sep.strip()` re-appended; the last part is kept only when its strip
is truthy. `pySplit` never returns `[]`, so the singleton case is the last
part. -/
def markParts (sep : List Char) : List (List Char) → List (List Char)
  | [] => []
  | [p] => if stripChars p = [] then [] else [p]
  | p :: ps => (p ++ stripChars sep) :: markParts sep ps

/-- The separator-iteration phase of `_split_by_sentences`: starting from
`[text]`, each separator splits every current sentence in order. -/
def sentencePhase (text : List Char) : List (List Char) :=
  sentenceSeparators.foldl
    (fun sentences sep => sentences.flatMap fun s => markParts sep (pySplit sep s))
    [text]

/-- Accumulation loop of `_split_by_sentences`: greedily join sentences with a
single space up to `chunk_size`, closing the current chunk (stripped) on
overflow. -/
def accumulateSentences (chunkSize : Nat) :
    List (List Char) → List (List Char) → List Char → List (List Char)
  | [], chunks, current =>
    if stripChars current = [] then chunks else chunks ++ [stripChars current]
  | s :: rest, chunks, current =>
    if chunkSize < current.length + s.length + 1 then
      let chunks := if current = [] then chunks else chunks ++ [stripChars current]
      accumulateSentences chunkSize rest chunks s
    else
      accumulateSentences chunkSize rest chunks
        (if current = [] then s else current ++ [' '] ++ s)

/-- `SmartChunker._split_by_sentences`. -/
def splitBySentences (chunkSize : Nat) (text : List Char) : List (List Char) :=
  accumulateSentences chunkSize (sentencePhase text) [] []

/-- Paragraph loop of `SmartChunker.chunk_text`, carrying the accumulated
`chunks` and the `current_chunk` buffer. -/
def chunkLoop (chunkSize overlap : Nat) :
    List (List Char) → List (List Char) → List Char → List (List Char)
  | [], chunks, current =>
    if stripChars current = [] then chunks else chunks ++ [stripChars current]
  | p :: ps, chunks, current =>
    let para := stripChars p
    if para = [] then chunkLoop chunkSize overlap ps chunks current
    else if chunkSize < para.length then
      let chunks := if current = [] then chunks else chunks ++ [stripChars current]
      chunkLoop chunkSize overlap ps (chunks ++ splitBySentences chunkSize para) []
    else if chunkSize < current.length + para.length + 2 then
      if current = [] then chunkLoop chunkSize overlap ps chunks para
      else
        let overlapText :=
          if overlap < current.length then sliceFromNeg overlap current else []
        chunkLoop chunkSize overlap ps (chunks ++ [stripChars current])
          (overlapText ++ lit "\n\n" ++ para)
    else
      chunkLoop chunkSize overlap ps chunks
        (if current = [] then para else current ++ lit "\n\n" ++ para)

/-- `SmartChunker.chunk_text`. -/
def chunkText (chunkSize overlap : Nat) (text : List Char) : List (List Char) :=
  if text = [] then []
  else if text.length ≤ chunkSize then [text]
  else chunkLoop chunkSize overlap (pySplit (lit "\n\n") text) [] []

/-! ## Question matrix configuration (`services.py`, `QuestionMatrixConfig`,
`GeminiService.generate_questions`)

Only the three integer count fields are modelled; the floating-point
`*_score` fields do not take part in any count computation and are omitted
(floating point is outside the shallow embedding). -/

/-- The `QuestionType` enum. -/
inductive QuestionType where
  | mcq
  | trueFalse
  | shortAnswer
  | mixed
deriving DecidableEq

/-- Count fields of `QuestionMatrixConfig`; Python ints may be negative, so
the fields are `Int`. -/
structure QuestionMatrixConfig where
  mcqCount : Int := 0
  trueFalseCount : Int := 0
  shortAnswerCount : Int := 0
deriving DecidableEq

/-- The `total_questions` property. -/
def QuestionMatrixConfig.totalQuestions (m : QuestionMatrixConfig) : Int :=
  m.mcqCount + m.trueFalseCount + m.shortAnswerCount

/-- The `QuestionMatrixConfig` built by the legacy wrapper
`GeminiService.generate_questions` from a question type and a nonnegative
question count (`num_questions // 3` is Python floor division, which equals
`Nat` division on nonnegative input). -/
def questionsMatrixFor (questionType : QuestionType) (numQuestions : Nat) :
    QuestionMatrixConfig :=
  match questionType with
  | .mcq => { mcqCount := (numQuestions : Int) }
  | .trueFalse => { trueFalseCount := (numQuestions : Int) }
  | .shortAnswer => { shortAnswerCount := (numQuestions : Int) }
  | .mixed =>
    let m : Int := max 1 ((numQuestions / 3 : Nat) : Int)
    let t : Int := max 1 ((numQuestions / 3 : Nat) : Int)
    { mcqCount := m, trueFalseCount := t,
      shortAnswerCount := (numQuestions : Int) - m - t }

/-! ## Usage Ledger (`models.py`, `AIUsageLog`)

A usage record row; `requestTime` is a timestamp in seconds.  The Django
queryset `filter(user=user, request_time__gte=now - 1h, was_cached=False)` is
embedded as a list filter. -/

/-- One `AIUsageLog` row (fields relevant to rate limiting). -/
structure UsageRecord where
  userId : Nat
  requestTime : Int
  wasCached : Bool
  success : Bool
deriving DecidableEq

/-- The count computed by both `check_rate_limit` and
`get_remaining_requests`: non-cached records of `user` whose `request_time`
is within the trailing hour (`>= now - 3600` seconds). -/
def recentNonCachedCount (logs : List UsageRecord) (user : Nat) (now : Int) : Nat :=
  (logs.filter fun r =>
    r.userId = user && decide (now - 3600 ≤ r.requestTime) && !r.wasCached).length

/-- `AIUsageLog.check_rate_limit`: `recent < limit`. -/
def checkRateLimit (logs : List UsageRecord) (user : Nat) (now : Int)
    (limit : Nat) : Bool :=
  recentNonCachedCount logs user now < limit

/-- `AIUsageLog.get_remaining_requests`: `max(0, limit - recent)`. -/
def getRemainingRequests (logs : List UsageRecord) (user : Nat) (now : Int)
    (limit : Nat) : Int :=
  max 0 ((limit : Int) - (recentNonCachedCount logs user now : Int))

/-! ## Hydra Key Manager (`services.py`, `HydraKeyManager`) -/

/-- Modelled from the spec: the `APIKey` Django model is imported by
`services.py` but its module is not part of the sources, so its per-key
health bookkeeping is abstracted.  `isAvailableFlag` stands for the result of
`APIKey.is_available()` (status `active` and not cooling down), `rpmOk` for
`APIKey.check_rpm_limit()` (within the per-minute request budget), and
`secret` for `APIKey.get_key()` (decrypted secret, `none` on decryption
failure).  `priority` and `pk` give the `order_by('priority', 'pk')` sort key
of `_get_db_keys`. -/
structure APIKey where
  pk : Nat
  priority : Int
  isAvailableFlag : Bool
  rpmOk : Bool
  secret : Option String
deriving DecidableEq

/-- Mutable state of the `HydraKeyManager` singleton together with the DB
key rows returned by `_get_db_keys` (already filtered to
`provider='gemini', is_active=True`, statuses other than `disabled`/`error`,
and sorted by `(priority, pk)`); the claim holds this set fixed between
calls. -/
structure HydraState where
  dbKeys : List APIKey
  currentIndex : Nat
  fallbackKeys : List String
  fallbackIndex : Nat
deriving DecidableEq

/-- Result of `get_next_key`: a DB key with its decrypted secret, or a
fallback `.env` key string. -/
inductive KeyChoice where
  | dbKey (key : APIKey) (raw : String)
  | fallback (raw : String)
deriving DecidableEq

/-- The Arabic `GeminiConfigurationError` message of `get_next_key`. -/
def noKeysMessage : String :=
  "لا توجد مفاتيح API متاحة. أضف مفاتيح من لوحة الإدارة أو في ملف .env"

/-- Fallback tail of `get_next_key`: use the `.env` key ring or fail with
`GeminiConfigurationError`.  Errors are surfaced as the message string here;
the full error taxonomy lives in the gateway section below.  An empty ring
makes the looked-up index out of range (`i % 0 = i`), which is exactly the
`if self._fallback_keys` guard. -/
def getNextKeyFallback (s : HydraState) :
    Except String (KeyChoice × HydraState) :=
  match s.fallbackKeys[s.fallbackIndex % s.fallbackKeys.length]? with
  | some key =>
    .ok (.fallback key, { s with fallbackIndex := s.fallbackIndex + 1 })
  | none => .error noKeysMessage

/-- `HydraKeyManager.get_next_key`: filter the DB keys to the available ones,
pick `available[current_index % len]`, advance the round-robin index, and
fall back to `.env` keys when the pick cannot be decrypted or no DB key is
available (an empty filtered pool makes the index out of range, matching the
`if available_keys` guard). -/
def getNextKey (s : HydraState) : Except String (KeyChoice × HydraState) :=
  let availableKeys := s.dbKeys.filter fun k => k.isAvailableFlag && k.rpmOk
  match availableKeys[s.currentIndex % availableKeys.length]? with
  | some keyObj =>
    let s₁ := { s with currentIndex := s.currentIndex + 1 }
    match keyObj.secret with
    | some raw => .ok (.dbKey keyObj raw, s₁)
    | none => getNextKeyFallback s₁
  | none => getNextKeyFallback s

/-- `n` consecutive `get_next_key` calls with no intervening errors,
collecting the selected DB credentials; `none` when some call does not yield
a DB credential. -/
def selectedKeys (s : HydraState) : Nat → Option (List APIKey × HydraState)
  | 0 => some ([], s)
  | n + 1 =>
    match getNextKey s with
    | .ok (.dbKey k _, s₁) =>
      (selectedKeys s₁ n).map fun p => (k :: p.1, p.2)
    | _ => none

/-! ## Generation Gateway (`services.py`, `GeminiService`)

Exceptions raised (or re-raised) by `_generate_content` and its callers.
`configuration`, `api`, `rateLimit` and `serviceDisabled` are the
`GeminiError` subclasses; `raw` is a non-`GeminiError` provider exception
(the bare exception stored in `last_exception` and re-raised after
exhaustion), which an `except GeminiError` block does not catch. -/
inductive GemErr where
  | configuration (msg : String)
  | api (msg : String)
  | rateLimit (msg : String)
  | serviceDisabled (msg : String)
  | raw (msg : String)
deriving DecidableEq

/-- `str(e)` of the stored exception. -/
def GemErr.message : GemErr → String
  | .configuration m | .api m | .rateLimit m | .serviceDisabled m | .raw m => m

/-- Whether `except GeminiError` catches the exception. -/
def isGeminiErr : GemErr → Bool
  | .raw _ => false
  | _ => true

/-- `MAX_RETRIES` constant of `services.py`. -/
def MAX_RETRIES : Nat := 3

/-- In-loop quota classification: `any(kw in str(e).lower() for kw in
["rate", "quota", "429", "resource_exhausted"])`. -/
def isRateLimitMsg (msg : String) : Bool :=
  ["rate", "quota", "429", "resource_exhausted"].any fun kw => containsKw msg kw

/-- Post-loop quota classification (note `resource_exhausted` is absent):
`any(kw in str(last_exception).lower() for kw in ["quota", "429", "rate"])`. -/
def isQuotaAtEnd (msg : String) : Bool :=
  ["quota", "429", "rate"].any fun kw => containsKw msg kw

/-- Invalid-credential classification: `"invalid" in error_str and "key" in
error_str`. -/
def isInvalidKeyMsg (msg : String) : Bool :=
  containsKw msg "invalid" && containsKw msg "key"

/-- The Arabic "try again" message of the `GeminiRateLimitError` raised after
exhausting all attempts on a quota failure. -/
def rateLimitUserMessage : String :=
  "⏳ تم تجاوز الحد المسموح لـ API. يرجى الانتظار دقيقة ثم المحاولة مرة أخرى، أو تواصل مع المسؤول لإضافة مفاتيح API إضافية."

/-- The default maintenance message of `_check_service_enabled`. -/
def defaultMaintenanceMessage : String := "خدمة الذكاء الاصطناعي متوقفة مؤقتاً."

/-- The `AIConfiguration` DB record as read by `_get_ai_config` (only the
fields the gateway reads; the floating-point `temperature` is omitted). -/
structure AIConfiguration where
  isServiceEnabled : Bool
  maintenanceMessage : String
  chunkSize : Nat
  chunkOverlap : Nat
  maxOutputTokens : Nat
  activeModel : String

/-- A question dict as produced by `_fallback_questions` or parsed from the
provider JSON (fields of the requested schema; the numeric `score` field is
floating point and omitted). -/
structure QuestionRecord where
  type : String
  question : String
  answer : String
  explanation : Option String
  options : Option (List String)
deriving DecidableEq

/-- Result of `json.loads` on the cleaned provider output, as seen by
`_parse_questions_json`: a JSON array of question dicts, some other JSON
value, or a `JSONDecodeError`. -/
inductive JsonOutcome where
  | arr (qs : List QuestionRecord)
  | notArr
  | failed

/-- Environment of one gateway call: the live DB configuration (`none` when
unavailable), whether `_initialize_client` produced a client
(`is_available`), the key manager's `total_keys`, the provider, and the JSON
library.  The provider oracle maps the global provider-call count to the
outcome of `client.models.generate_content`: generated text, or the message
of the raised provider exception.  The `json.loads` oracle stands for the
Python `json` standard library. -/
structure GatewayEnv where
  config : Option AIConfiguration
  clientReady : Bool
  totalKeys : Nat
  oracle : Nat → Except String String
  jsonLoads : String → JsonOutcome

/-- Effect counters threaded through a gateway call: provider calls issued
and key rotations (`_reinitialize_with_next_key` invocations) performed. -/
structure GenEffects where
  providerCalls : Nat
  rotations : Nat
deriving DecidableEq

/-- Zero effects at the start of a call. -/
def noEffects : GenEffects := ⟨0, 0⟩

/-- The message carried by the `GeminiServiceDisabledError`:
`config.maintenance_message or <default>` (Python `or` falls through on the
empty string). -/
def disabledMessage (c : AIConfiguration) : String :=
  if c.maintenanceMessage ≠ "" then c.maintenanceMessage
  else defaultMaintenanceMessage

/-- `GeminiService._check_service_enabled`: raise
`GeminiServiceDisabledError` with the admin message (or the default when the
admin message is falsy) when a configuration exists and the service is
disabled. -/
def checkServiceEnabled (config : Option AIConfiguration) : Except GemErr Unit :=
  match config with
  | some c =>
    if !c.isServiceEnabled then .error (.serviceDisabled (disabledMessage c))
    else .ok ()
  | none => .ok ()

/-- The `chunk_size` in effect (`config.chunk_size` or the fallback), used
both by `SmartChunker` and as the prompt input limit. -/
def envChunkSize (env : GatewayEnv) : Nat :=
  match env.config with
  | some c => c.chunkSize
  | none => FALLBACK_CHUNK_SIZE

/-- The `chunk_overlap` in effect. -/
def envChunkOverlap (env : GatewayEnv) : Nat :=
  match env.config with
  | some c => c.chunkOverlap
  | none => FALLBACK_CHUNK_OVERLAP

/-- Retry loop of `_generate_content`.  `remaining` counts loop iterations
still allowed (`range(max(max_attempts, 1))`), `attempt` is the Python loop
variable, `lastExc` is `last_exception`.  Backoff sleeps and the
`retry in (\d+)` parse affect only timing and are not modelled.  A provider
response with falsy `text` raises `GeminiAPIError("Empty response from
Gemini")` into the same handler; `mark_success` latency reporting mutates
the key model, which is outside the sources.  The oracle is indexed by the
global provider-call counter. -/
def generateContentLoop (env : GatewayEnv) (maxAttempts : Nat) :
    Nat → Nat → GenEffects → Option GemErr → Except GemErr String × GenEffects
  | 0, _, eff, lastExc =>
    match lastExc with
    | some e =>
      if isQuotaAtEnd e.message then (.error (.rateLimit rateLimitUserMessage), eff)
      else (.error e, eff)
    | none => (.error (.api "All API keys exhausted"), eff)
  | remaining + 1, attempt, eff, lastExc =>
    let result := env.oracle eff.providerCalls
    let eff := { eff with providerCalls := eff.providerCalls + 1 }
    match result with
    | .ok text =>
      if text ≠ "" then (.ok (String.mk (stripChars text.data)), eff)
      else
        let e : GemErr := .api "Empty response from Gemini"
        if isRateLimitMsg e.message then
          generateContentLoop env maxAttempts remaining (attempt + 1)
            { eff with rotations := eff.rotations + 1 } (some e)
        else if isInvalidKeyMsg e.message then
          generateContentLoop env maxAttempts remaining (attempt + 1)
            { eff with rotations := eff.rotations + 1 } (some e)
        else if attempt < maxAttempts - 1 then
          generateContentLoop env maxAttempts remaining (attempt + 1)
            { eff with rotations := eff.rotations + 1 } (some e)
        else (.error (.api ("Gemini API error: " ++ e.message)), eff)
    | .error msg =>
      let e : GemErr := .raw msg
      if isRateLimitMsg e.message then
        generateContentLoop env maxAttempts remaining (attempt + 1)
          { eff with rotations := eff.rotations + 1 } (some e)
      else if isInvalidKeyMsg e.message then
        generateContentLoop env maxAttempts remaining (attempt + 1)
          { eff with rotations := eff.rotations + 1 } (some e)
      else if attempt < maxAttempts - 1 then
        generateContentLoop env maxAttempts remaining (attempt + 1)
          { eff with rotations := eff.rotations + 1 } (some e)
      else (.error (.api ("Gemini API error: " ++ e.message)), eff)

/-- `max_attempts = min(total_keys, MAX_RETRIES) if total_keys > 0 else
MAX_RETRIES` of `_generate_content`. -/
def rawMaxAttempts (env : GatewayEnv) : Nat :=
  if 0 < env.totalKeys then min env.totalKeys MAX_RETRIES else MAX_RETRIES

/-- The number of loop iterations of `_generate_content`:
`range(max(max_attempts, 1))`. -/
def maxAttemptsOf (env : GatewayEnv) : Nat :=
  max (rawMaxAttempts env) 1

/-- `GeminiService._generate_content`: service-disable check, client check,
`max_attempts = min(total_keys, MAX_RETRIES) if total_keys > 0 else
MAX_RETRIES`, then the retry loop.  The prompt and token budget do not
influence the modelled outcome but are kept as arguments. -/
def generateContent (env : GatewayEnv) (prompt : List Char) (maxTokens : Nat)
    (eff : GenEffects) : Except GemErr String × GenEffects :=
  match checkServiceEnabled env.config with
  | .error e => (.error e, eff)
  | .ok () =>
    if !env.clientReady then
      (.error (.configuration "Gemini client not initialized"), eff)
    else
      generateContentLoop env (rawMaxAttempts env) (maxAttemptsOf env) 0 eff none

/-! ## Gateway operations -/

/-- Inner loop of `GeminiService._fallback_summary`: accumulate stripped
sentences followed by `". "` while under `max_length * 4`, stopping early
once more than 100 characters are collected. -/
def fallbackSummaryLoop (maxLength : Nat) :
    List (List Char) → List Char → List Char
  | [], summary => summary
  | s :: rest, summary =>
    let s := stripChars s
    if s ≠ [] ∧ summary.length + s.length < maxLength * 4 then
      fallbackSummaryLoop maxLength rest (summary ++ s ++ lit ". ")
    else if 100 < summary.length then summary
    else fallbackSummaryLoop maxLength rest summary

/-- `GeminiService._fallback_summary`: the non-AI extractive summary
(newlines replaced by spaces, split on periods, sentences concatenated up to
the length budget; if empty, a truncated prefix of the text plus `"..."`). -/
def fallbackSummary (text : List Char) (maxLength : Nat) : List Char :=
  let sentences := pySplit (lit ".") (text.map fun c => if c = '\n' then ' ' else c)
  let summary := stripChars (fallbackSummaryLoop maxLength sentences [])
  if summary ≠ [] then summary else text.take (maxLength * 4) ++ lit "..."

/-- Prompt of `GeminiService._generate_single_summary`. -/
def singleSummaryPrompt (env : GatewayEnv) (text : List Char) (maxLength : Nat)
    (userNotes : List Char) : List Char :=
  let notesSection :=
    if userNotes ≠ [] then lit "\nملاحظات إضافية من المستخدم: " ++ userNotes else []
  lit "أنت مساعد أكاديمي متخصص في تلخيص المحتوى التعليمي باللغة العربية.\n\nقم بتلخيص النص التالي بشكل مختصر ومفيد بصيغة Markdown. ركز على:\n- النقاط الرئيسية والمفاهيم الأساسية\n- المعلومات الأكثر أهمية\n- الحفاظ على الدقة العلمية\n- استخدام عناوين وقوائم لتنظيم المحتوى\n"
    ++ notesSection
    ++ lit "\n\nالنص:\n" ++ text.take (envChunkSize env)
    ++ lit "\n\nالتلخيص (بحد أقصى " ++ natChars maxLength
    ++ lit " كلمة، بصيغة Markdown):"

/-- `GeminiService._generate_single_summary`: one provider summary call; an
`except GeminiError` turns failures into the extractive fallback, while a
non-`GeminiError` exception (the bare `last_exception` re-raised after
exhaustion) propagates. -/
def generateSingleSummary (env : GatewayEnv) (text : List Char) (maxLength : Nat)
    (userNotes : List Char) (eff : GenEffects) :
    Except GemErr (List Char) × GenEffects :=
  match generateContent env (singleSummaryPrompt env text maxLength userNotes)
      (maxLength * 3) eff with
  | (.ok s, eff) => (.ok s.data, eff)
  | (.error e, eff) =>
    if isGeminiErr e then (.ok (fallbackSummary text maxLength), eff)
    else (.error e, eff)

/-- Per-chunk loop of `generate_summary`: a partial summary per chunk with a
200-word bound and a "part i of N" note; chunks whose generation raises a
`GeminiError` are skipped. -/
def summaryPartialsLoop (env : GatewayEnv) (total : Nat) (userNotes : List Char) :
    Nat → List (List Char) → List (List Char) → GenEffects →
    Except GemErr (List (List Char)) × GenEffects
  | _, [], acc, eff => (.ok acc, eff)
  | i, chunk :: rest, acc, eff =>
    match generateSingleSummary env chunk 200
        (lit "هذا الجزء " ++ natChars (i + 1) ++ lit " من " ++ natChars total
          ++ lit ". " ++ userNotes) eff with
    | (.ok s, eff) => summaryPartialsLoop env total userNotes (i + 1) rest (acc ++ [s]) eff
    | (.error e, eff) =>
      if isGeminiErr e then summaryPartialsLoop env total userNotes (i + 1) rest acc eff
      else (.error e, eff)

/-- `GeminiService.generate_summary` (body of the `cache_result`-decorated
function; the claims concern uncached calls, so the decorator's cache is
modelled as a miss): chunk the text, summarize directly when at most one
chunk, otherwise summarize each chunk, fall back to the extractive summary
when every chunk fails, and merge the partials with one more call. -/
def generateSummary (env : GatewayEnv) (text : List Char) (maxLength : Nat)
    (userNotes : List Char) (eff : GenEffects) :
    Except GemErr (List Char) × GenEffects :=
  let chunks := chunkText (envChunkSize env) (envChunkOverlap env) text
  if chunks.length ≤ 1 then generateSingleSummary env text maxLength userNotes eff
  else
    match summaryPartialsLoop env chunks.length userNotes 0 chunks [] eff with
    | (.error e, eff) => (.error e, eff)
    | (.ok chunkSummaries, eff) =>
      if chunkSummaries = [] then (.ok (fallbackSummary text maxLength), eff)
      else
        let combined := List.intercalate (lit "\n\n") chunkSummaries
        generateSingleSummary env combined maxLength
          (lit "هذا ملخص مُجمّع من " ++ natChars chunks.length
            ++ lit " أجزاء. أعد صياغته كملخص متماسك واحد. " ++ userNotes) eff

/-- `GeminiService._fallback_questions`: the fabricated placeholder question
returned when the provider call fails with a `GeminiError` (the
`num_questions` argument is ignored by the source; the 1.0 float score field
is omitted). -/
def fallbackQuestions (numQuestions : Int) : List QuestionRecord :=
  [{ type := "short_answer",
     question := "ما هي الفكرة الرئيسية في هذا النص؟",
     answer := "راجع النص للإجابة",
     explanation := some "سؤال تلقائي - خدمة AI غير متاحة حالياً",
     options := none }]

/-- `GeminiService._parse_questions_json`: strip code fences, strip, parse;
a non-array or unparsable result yields `[]`.  The `getD` defaults are
unreachable: index 1 exists because the marker occurs, and `pySplit` never
returns an empty list. -/
def parseQuestionsJson (env : GatewayEnv) (result : String) :
    List QuestionRecord :=
  let r := stripChars result.data
  let r :=
    if hasInfix (lit "```json") r then
      (pySplit (lit "```") ((pySplit (lit "```json") r).getD 1 [])).getD 0 []
    else if hasInfix (lit "```") r then
      (pySplit (lit "```") ((pySplit (lit "```") r).getD 1 [])).getD 0 []
    else r
  let r := stripChars r
  match env.jsonLoads (String.mk r) with
  | .arr qs => qs
  | .notArr => []
  | .failed => []

/-- Prompt of `generate_questions_matrix` (the matrix lines elide the
floating-point per-question scores, which do not affect any modelled
outcome). -/
def questionsPrompt (env : GatewayEnv) (sourceText : List Char)
    (matrix : QuestionMatrixConfig) (userNotes : List Char) : List Char :=
  let notesSection := if userNotes ≠ [] then lit "\nملاحظات: " ++ userNotes else []
  let parts :=
    (if 0 < matrix.mcqCount then
      [lit "- " ++ (toString matrix.mcqCount).data ++ lit " سؤال اختيار من متعدد (mcq)"]
     else [])
    ++ (if 0 < matrix.trueFalseCount then
      [lit "- " ++ (toString matrix.trueFalseCount).data ++ lit " سؤال صح وخطأ (true_false)"]
     else [])
    ++ (if 0 < matrix.shortAnswerCount then
      [lit "- " ++ (toString matrix.shortAnswerCount).data ++ lit " سؤال إجابة قصيرة (short_answer)"]
     else [])
  let matrixText := List.intercalate (lit "\n") parts
  lit "أنت مدرس جامعي متخصص في إنشاء أسئلة اختبارية باللغة العربية.\n\nأنشئ الأسئلة التالية بالضبط من النص المقدم:\n"
    ++ matrixText
    ++ lit "\n\nإجمالي: " ++ (toString matrix.totalQuestions).data ++ lit " سؤال"
    ++ notesSection
    ++ lit "\n\nأرجع الإجابة بصيغة JSON فقط بدون أي نص إضافي، كمصفوفة:\n[\n    \x7b\n        \"type\": \"mcq\" أو \"true_false\" أو \"short_answer\",\n        \"question\": \"نص السؤال\",\n        \"options\": [\"خيار1\", \"خيار2\", \"خيار3\", \"خيار4\"],\n        \"answer\": \"الإجابة الصحيحة\",\n        \"explanation\": \"شرح مختصر\",\n        \"score\": الدرجة_كرقم\n    \x7d\n]\n\nالنص:\n"
    ++ sourceText.take (envChunkSize env)
    ++ lit "\n\nالأسئلة (JSON فقط):"

/-- `GeminiService.generate_questions_matrix`: empty immediately on a zero
total; otherwise pick the first chunk (or the first three joined when the
text chunked into several), issue one provider call, parse the JSON, and on
a `GeminiError` return the fabricated `_fallback_questions`; a
non-`GeminiError` exception propagates. -/
def generateQuestionsMatrix (env : GatewayEnv) (text : List Char)
    (matrix : QuestionMatrixConfig) (userNotes : List Char) (eff : GenEffects) :
    Except GemErr (List QuestionRecord) × GenEffects :=
  if matrix.totalQuestions = 0 then (.ok [], eff)
  else
    let chunks := chunkText (envChunkSize env) (envChunkOverlap env) text
    let sourceText :=
      match chunks with
      | [] => text.take (envChunkSize env)
      | c :: _ => c
    let sourceText :=
      if 1 < chunks.length then List.intercalate (lit "\n\n---\n\n") (chunks.take 3)
      else sourceText
    match generateContent env (questionsPrompt env sourceText matrix userNotes)
        4000 eff with
    | (.ok result, eff) => (.ok (parseQuestionsJson env result), eff)
    | (.error e, eff) =>
      if isGeminiErr e then (.ok (fallbackQuestions matrix.totalQuestions), eff)
      else (.error e, eff)

/-- `GeminiService.generate_questions` (legacy wrapper; `cache_result`
modelled as a miss): build the matrix from the question type and delegate. -/
def generateQuestions (env : GatewayEnv) (text : List Char)
    (questionType : QuestionType) (numQuestions : Nat) (userNotes : List Char)
    (eff : GenEffects) : Except GemErr (List QuestionRecord) × GenEffects :=
  generateQuestionsMatrix env text (questionsMatrixFor questionType numQuestions)
    userNotes eff

/-- `GeminiService._find_relevant_chunks`: score each chunk by the number of
distinct lowercase question words it shares with the chunk's words, stable
descending sort (Python `sort(key, reverse=True)`), join the top three. -/
def findRelevantChunks (chunks : List (List Char)) (question : List Char) :
    List Char :=
  let questionWords := (pyWords (lowerChars question)).dedup
  let scored := chunks.map fun c =>
    ((questionWords.filter fun w => (pyWords (lowerChars c)).contains w).length, c)
  let sorted := scored.mergeSort fun a b => b.1 ≤ a.1
  List.intercalate (lit "\n\n---\n\n") ((sorted.take 3).map Prod.snd)

/-- The apology string returned by `ask_document` when the provider call
raises a `GeminiError`. -/
def askDocumentApology : List Char :=
  lit "عذراً، حدث خطأ أثناء معالجة سؤالك. يرجى المحاولة مرة أخرى."

/-- Prompt of `ask_document`. -/
def askDocumentPrompt (context question userNotes : List Char) : List Char :=
  let notesSection := if userNotes ≠ [] then lit "\nسياق إضافي: " ++ userNotes else []
  lit "أنت مساعد أكاديمي يجيب على الأسئلة بناءً على محتوى المستندات.\n\nقواعد:\n1. أجب بناءً على المحتوى المقدم فقط\n2. إذا لم تجد الإجابة، قل ذلك بوضوح\n3. استخدم اللغة العربية الفصحى\n4. كن واضحاً ومفصلاً\n5. استخدم صيغة Markdown في الإجابة\n"
    ++ notesSection
    ++ lit "\n\nالمحتوى:\n" ++ context
    ++ lit "\n\nالسؤال: " ++ question
    ++ lit "\n\nالإجابة:"

/-- `GeminiService.ask_document`: answer from the first chunk (or the top-3
relevant chunks when several), returning the apology string when the
provider call raises a `GeminiError`; a non-`GeminiError` exception
propagates. -/
def askDocument (env : GatewayEnv) (text question userNotes : List Char)
    (eff : GenEffects) : Except GemErr (List Char) × GenEffects :=
  let chunks := chunkText (envChunkSize env) (envChunkOverlap env) text
  let context :=
    match chunks with
    | [] => text.take (envChunkSize env)
    | c :: _ => c
  let context := if 1 < chunks.length then findRelevantChunks chunks question else context
  match generateContent env (askDocumentPrompt context question userNotes) 1000 eff with
  | (.ok s, eff) => (.ok s.data, eff)
  | (.error e, eff) =>
    if isGeminiErr e then (.ok askDocumentApology, eff)
    else (.error e, eff)

/-! ## Concrete gateway environments for counterexamples and witnesses -/

/-- A live configuration with the service switched off by the admin. -/
def disabledEnv : GatewayEnv where
  config := some
    { isServiceEnabled := false
      maintenanceMessage := "الخدمة متوقفة للصيانة"
      chunkSize := 30000
      chunkOverlap := 500
      maxOutputTokens := 2000
      activeModel := "gemini-2.5-flash" }
  clientReady := true
  totalKeys := 3
  oracle := fun _ => .ok "PROVIDER TEXT"
  jsonLoads := fun _ => .failed

/-- Three configured credentials, every provider attempt failing with a
quota error. -/
def quotaEnv : GatewayEnv where
  config := none
  clientReady := true
  totalKeys := 3
  oracle := fun _ => .error "429 quota exceeded"
  jsonLoads := fun _ => .failed

/-- A still-initialized client whose key pool has shrunk to zero keys, every
provider attempt failing with a quota error. -/
def zeroKeysEnv : GatewayEnv where
  config := none
  clientReady := true
  totalKeys := 0
  oracle := fun _ => .error "429 quota exceeded"
  jsonLoads := fun _ => .failed

/-- One credential, every provider attempt failing with a bare
`resource_exhausted` error (quota-classified in the loop but not matched by
the post-loop keyword set). -/
def resourceEnv : GatewayEnv where
  config := none
  clientReady := true
  totalKeys := 1
  oracle := fun _ => .error "resource_exhausted"
  jsonLoads := fun _ => .failed

/-! ## Chunker lemmas and claims C6, C7 -/

theorem length_stripChars_le (s : List Char) : (stripChars s).length ≤ s.length := by
  unfold stripChars
  calc ((s.dropWhile pyWhitespace).reverse.dropWhile pyWhitespace).reverse.length
      = ((s.dropWhile pyWhitespace).reverse.dropWhile pyWhitespace).length := by
        rw [List.length_reverse]
    _ ≤ (s.dropWhile pyWhitespace).reverse.length :=
        (List.dropWhile_sublist pyWhitespace).length_le
    _ = (s.dropWhile pyWhitespace).length := by rw [List.length_reverse]
    _ ≤ s.length := (List.dropWhile_sublist pyWhitespace).length_le

theorem length_sliceFromNeg_le (n : Nat) (s : List Char) (hn : n ≠ 0) :
    (sliceFromNeg n s).length ≤ n := by
  unfold sliceFromNeg
  rw [if_neg hn, List.length_drop]
  omega

/-- One step of the sentence-accumulation invariant: when every incoming
sentence fits in `chunkSize`, so does every produced chunk. -/
theorem accumulateSentences_length_le (chunkSize : Nat) :
    ∀ (ss chunks : List (List Char)) (current : List Char),
      (∀ s ∈ ss, s.length ≤ chunkSize) →
      (∀ c ∈ chunks, c.length ≤ chunkSize) →
      current.length ≤ chunkSize →
      ∀ c ∈ accumulateSentences chunkSize ss chunks current, c.length ≤ chunkSize
  | [], chunks, current, _, hchunks, hcur => by
    intro c hc
    unfold accumulateSentences at hc
    by_cases hstrip : stripChars current = []
    · rw [if_pos hstrip] at hc
      exact hchunks c hc
    · rw [if_neg hstrip] at hc
      rcases List.mem_append.mp hc with h | h
      · exact hchunks c h
      · have : c = stripChars current := List.mem_singleton.mp h
        subst this
        exact le_trans (length_stripChars_le current) hcur
  | s :: rest, chunks, current, hss, hchunks, hcur => by
    intro c hc
    have hs : s.length ≤ chunkSize := hss s (List.mem_cons_self s rest)
    have hrest : ∀ x ∈ rest, x.length ≤ chunkSize :=
      fun x hx => hss x (List.mem_cons_of_mem s hx)
    unfold accumulateSentences at hc
    by_cases hover : chunkSize < current.length + s.length + 1
    · rw [if_pos hover] at hc
      have hchunks' : ∀ x ∈ (if current = [] then chunks
          else chunks ++ [stripChars current]), x.length ≤ chunkSize := by
        intro x hx
        by_cases hcur0 : current = []
        · rw [if_pos hcur0] at hx; exact hchunks x hx
        · rw [if_neg hcur0] at hx
          rcases List.mem_append.mp hx with h | h
          · exact hchunks x h
          · have : x = stripChars current := List.mem_singleton.mp h
            subst this
            exact le_trans (length_stripChars_le current) hcur
      exact accumulateSentences_length_le chunkSize rest _ s hrest hchunks' hs c hc
    · rw [if_neg hover] at hc
      have hcur' : (if current = [] then s else current ++ [' '] ++ s).length
          ≤ chunkSize := by
        by_cases hcur0 : current = []
        · rw [if_pos hcur0]; exact hs
        · rw [if_neg hcur0]
          simp only [List.length_append, List.length_cons, List.length_nil]
          omega
      exact accumulateSentences_length_le chunkSize rest chunks _ hrest hchunks hcur' c hc

theorem splitBySentences_length_le (chunkSize : Nat) (text : List Char)
    (h : ∀ s ∈ sentencePhase text, s.length ≤ chunkSize) :
    ∀ c ∈ splitBySentences chunkSize text, c.length ≤ chunkSize := by
  unfold splitBySentences
  exact accumulateSentences_length_le chunkSize (sentencePhase text) [] [] h
    (by intro c hc; cases hc) (Nat.zero_le _)

/-- Loop invariant of `chunk_text`: with a positive overlap, every emitted
chunk is bounded by `chunk_size + overlap + 2` (the `+ 2` being the
re-joined `"\n\n"` between the overlap seed and the next paragraph),
provided every oversized paragraph splits into sentences that fit. -/
theorem chunkLoop_length_le (chunkSize overlap : Nat) (hov : overlap ≠ 0) :
    ∀ (ps chunks : List (List Char)) (current : List Char),
      (∀ p ∈ ps, chunkSize < (stripChars p).length →
        ∀ s ∈ sentencePhase (stripChars p), s.length ≤ chunkSize) →
      (∀ c ∈ chunks, c.length ≤ chunkSize + overlap + 2) →
      current.length ≤ chunkSize + overlap + 2 →
      ∀ c ∈ chunkLoop chunkSize overlap ps chunks current,
        c.length ≤ chunkSize + overlap + 2
  | [], chunks, current, _, hchunks, hcur => by
    intro c hc
    unfold chunkLoop at hc
    by_cases hstrip : stripChars current = []
    · rw [if_pos hstrip] at hc
      exact hchunks c hc
    · rw [if_neg hstrip] at hc
      rcases List.mem_append.mp hc with h | h
      · exact hchunks c h
      · have : c = stripChars current := List.mem_singleton.mp h
        subst this
        exact le_trans (length_stripChars_le current) hcur
  | p :: ps, chunks, current, hps, hchunks, hcur => by
    intro c hc
    have hp : chunkSize < (stripChars p).length →
        ∀ s ∈ sentencePhase (stripChars p), s.length ≤ chunkSize :=
      hps p (List.mem_cons_self p ps)
    have hrest : ∀ x ∈ ps, chunkSize < (stripChars x).length →
        ∀ s ∈ sentencePhase (stripChars x), s.length ≤ chunkSize :=
      fun x hx => hps x (List.mem_cons_of_mem p hx)
    have hclose : ∀ x ∈ (if current = [] then chunks
        else chunks ++ [stripChars current]), x.length ≤ chunkSize + overlap + 2 := by
      intro x hx
      by_cases hcur0 : current = []
      · rw [if_pos hcur0] at hx; exact hchunks x hx
      · rw [if_neg hcur0] at hx
        rcases List.mem_append.mp hx with h | h
        · exact hchunks x h
        · have : x = stripChars current := List.mem_singleton.mp h
          subst this
          exact le_trans (length_stripChars_le current) hcur
    unfold chunkLoop at hc
    by_cases hempty : stripChars p = []
    · rw [if_pos hempty] at hc
      exact chunkLoop_length_le chunkSize overlap hov ps chunks current hrest hchunks hcur c hc
    · rw [if_neg hempty] at hc
      by_cases hlong : chunkSize < (stripChars p).length
      · rw [if_pos hlong] at hc
        have hsent : ∀ x ∈ splitBySentences chunkSize (stripChars p),
            x.length ≤ chunkSize + overlap + 2 := by
          intro x hx
          have := splitBySentences_length_le chunkSize (stripChars p) (hp hlong) x hx
          omega
        have hboth : ∀ x ∈ (if current = [] then chunks
            else chunks ++ [stripChars current]) ++ splitBySentences chunkSize (stripChars p),
            x.length ≤ chunkSize + overlap + 2 := by
          intro x hx
          rcases List.mem_append.mp hx with h | h
          · exact hclose x h
          · exact hsent x h
        exact chunkLoop_length_le chunkSize overlap hov ps _ [] hrest hboth
          (Nat.zero_le _) c hc
      · rw [if_neg hlong] at hc
        by_cases hover : chunkSize < current.length + (stripChars p).length + 2
        · rw [if_pos hover] at hc
          by_cases hcur0 : current = []
          · rw [if_pos hcur0] at hc
            exact chunkLoop_length_le chunkSize overlap hov ps chunks (stripChars p)
              hrest hchunks (by omega) c hc
          · rw [if_neg hcur0] at hc
            have hovText : (if overlap < current.length then sliceFromNeg overlap current
                else []).length ≤ overlap := by
              by_cases hlt : overlap < current.length
              · rw [if_pos hlt]; exact length_sliceFromNeg_le overlap current hov
              · rw [if_neg hlt]; exact Nat.zero_le _
            have hchunks' : ∀ x ∈ chunks ++ [stripChars current],
                x.length ≤ chunkSize + overlap + 2 := by
              intro x hx
              rcases List.mem_append.mp hx with h | h
              · exact hchunks x h
              · have : x = stripChars current := List.mem_singleton.mp h
                subst this
                exact le_trans (length_stripChars_le current) hcur
            have hcur' : ((if overlap < current.length then sliceFromNeg overlap current
                else []) ++ lit "\n\n" ++ stripChars p).length ≤ chunkSize + overlap + 2 := by
              simp only [List.length_append]
              have : (lit "\n\n").length = 2 := rfl
              omega
            exact chunkLoop_length_le chunkSize overlap hov ps _ _ hrest hchunks' hcur' c hc
        · rw [if_neg hover] at hc
          have hcur' : (if current = [] then stripChars p
              else current ++ lit "\n\n" ++ stripChars p).length ≤ chunkSize + overlap + 2 := by
            by_cases hcur0 : current = []
            · rw [if_pos hcur0]; omega
            · rw [if_neg hcur0]
              simp only [List.length_append]
              have : (lit "\n\n").length = 2 := rfl
              omega
          exact chunkLoop_length_le chunkSize overlap hov ps chunks _ hrest hchunks hcur' c hc

/-- C6: the claim predicts `chunk_text` returns `[text.strip()]` for short
text, but the code returns `[text]` unstripped: on `" a "` with
`chunk_size = 5 > 0` (and `len(text) = 3 ≤ 5`) the result keeps the
whitespace. -/
theorem chunkText_short_strip_counterexample :
    0 < 5 ∧ (lit " a ").length ≤ 5 ∧
    chunkText 5 1 (lit " a ") ≠ [stripChars (lit " a ")] := by decide

/-- C6 (amended): for every nonempty `text` with `len(text) <= chunk_size`
(`chunk_size` positive), `chunk_text(text)` returns exactly one element, and
that element equals `text` itself (unstripped); the empty text yields `[]`. -/
theorem chunkText_short_identity (chunkSize overlap : Nat) (text : List Char)
    (hpos : 0 < chunkSize) (hne : text ≠ []) (hlen : text.length ≤ chunkSize) :
    chunkText chunkSize overlap text = [text] := by
  unfold chunkText
  rw [if_neg hne, if_pos hlen]

/-- Witness for the amended C6 at `chunk_size = 5`, `text = "ab"`. -/
theorem chunkText_short_identity_witness :
    chunkText 5 1 (lit "ab") = [lit "ab"] :=
  chunkText_short_identity 5 1 (lit "ab") (by decide) (by decide) (by decide)

/-- C7: the claimed bound `chunk_size + overlap` fails: with
`chunk_size = 10`, `overlap = 4` and three short paragraphs (every
paragraph, hence every sentence, fits in `chunk_size`), the second chunk
`"aaaa\n\nbbbbbbbbbb"` has length 16 > 14, because the overlap seed is
re-joined to the next paragraph with a fresh `"\n\n"`. -/
theorem chunkText_bound_counterexample :
    10 < (lit "aaaaaaaaaa\n\nbbbbbbbbbb\n\nc").length ∧
    (∀ p ∈ pySplit (lit "\n\n") (lit "aaaaaaaaaa\n\nbbbbbbbbbb\n\nc"),
      10 < (stripChars p).length →
      ∀ s ∈ sentencePhase (stripChars p), s.length ≤ 10) ∧
    ∃ c ∈ chunkText 10 4 (lit "aaaaaaaaaa\n\nbbbbbbbbbb\n\nc"),
      10 + 4 < c.length := by decide

/-- C7 (amended): for every text longer than `chunk_size` whose individual
sentences (after paragraph and sentence splitting) each fit within
`chunk_size`, and a positive `overlap`, every chunk returned by `chunk_text`
has length at most `chunk_size + overlap + 2` (the extra 2 characters being
the `"\n\n"` joiner between the overlap seed and the following paragraph). -/
theorem chunkText_length_le (chunkSize overlap : Nat) (text : List Char)
    (hov : 0 < overlap) (hlong : chunkSize < text.length)
    (hsent : ∀ p ∈ pySplit (lit "\n\n") text, chunkSize < (stripChars p).length →
      ∀ s ∈ sentencePhase (stripChars p), s.length ≤ chunkSize) :
    ∀ c ∈ chunkText chunkSize overlap text, c.length ≤ chunkSize + overlap + 2 := by
  intro c hc
  have hne : text ≠ [] := by
    intro h
    rw [h] at hlong
    simp at hlong
  unfold chunkText at hc
  rw [if_neg hne, if_neg (by omega)] at hc
  exact chunkLoop_length_le chunkSize overlap (by omega) (pySplit (lit "\n\n") text)
    [] [] hsent (by intro x hx; cases hx) (Nat.zero_le _) c hc

/-- Witness for the amended C7 on the counterexample input: the oversized
second chunk respects the corrected bound 16. -/
theorem chunkText_length_le_witness :
    (lit "aaaa\n\nbbbbbbbbbb").length ≤ 10 + 4 + 2 :=
  chunkText_length_le 10 4 (lit "aaaaaaaaaa\n\nbbbbbbbbbb\n\nc") (by decide)
    (by decide) (by decide) (lit "aaaa\n\nbbbbbbbbbb") (by decide)

/-! ## Usage Ledger: claim C9 -/

/-- C9: `check_rate_limit` returns false exactly when the non-cached count
of the user in the trailing 60-minute window has reached the limit; records
flagged cached are never counted (prepending one leaves the count
unchanged); `get_remaining_requests` is the limit minus that count, floored
at zero. -/
theorem usageLedger_quota_spec (logs : List UsageRecord) (user : Nat) (now : Int)
    (limit : Nat) :
    (checkRateLimit logs user now limit = false ↔
      limit ≤ recentNonCachedCount logs user now) ∧
    (∀ r : UsageRecord, r.wasCached = true →
      recentNonCachedCount (r :: logs) user now =
        recentNonCachedCount logs user now) ∧
    getRemainingRequests logs user now limit =
      max 0 ((limit : Int) - (recentNonCachedCount logs user now : Int)) := by
  refine ⟨?_, ?_, rfl⟩
  · unfold checkRateLimit
    simp [Nat.not_lt]
  · intro r hr
    unfold recentNonCachedCount
    simp [List.filter_cons, hr]

/-- Witness for C9: a cached record does not change the counted total. -/
theorem usageLedger_quota_spec_witness :
    recentNonCachedCount [⟨1, 50, true, true⟩] 1 100 =
      recentNonCachedCount [] 1 100 :=
  (usageLedger_quota_spec [] 1 100 10).2.1 ⟨1, 50, true, true⟩ rfl

/-! ## Legacy question wrapper: claim C10 -/

/-- C10: the claim asserts all three derived counts are nonnegative for the
MIXED type for every `num_questions >= 0`, but `generate_questions` with
`num_questions = 0` builds `max(1, 0) = 1` MCQ and true/false counts and a
short-answer count of `0 - 1 - 1 = -2 < 0`. -/
theorem questionsMatrixFor_mixed_counterexample :
    (questionsMatrixFor QuestionType.mixed 0).shortAnswerCount = -2 ∧
    ¬(0 ≤ (questionsMatrixFor QuestionType.mixed 0).shortAnswerCount) := by decide

/-- C10 (amended): for every `num_questions >= 0` and question type, the
constructed matrix's three counts sum to `num_questions` (and for the
single-kind types the matching count equals `num_questions`); for the MIXED
type the three counts are all nonnegative whenever `num_questions >= 2`
(for `num_questions` 0 or 1 the short-answer count is negative). -/
theorem questionsMatrixFor_spec (qt : QuestionType) (n : Nat) :
    (questionsMatrixFor qt n).totalQuestions = (n : Int) ∧
    (questionsMatrixFor QuestionType.mcq n).mcqCount = (n : Int) ∧
    (questionsMatrixFor QuestionType.trueFalse n).trueFalseCount = (n : Int) ∧
    (questionsMatrixFor QuestionType.shortAnswer n).shortAnswerCount = (n : Int) ∧
    (2 ≤ n →
      0 ≤ (questionsMatrixFor QuestionType.mixed n).mcqCount ∧
      0 ≤ (questionsMatrixFor QuestionType.mixed n).trueFalseCount ∧
      0 ≤ (questionsMatrixFor QuestionType.mixed n).shortAnswerCount) := by
  refine ⟨?_, rfl, rfl, rfl, ?_⟩
  · cases qt <;>
      simp [questionsMatrixFor, QuestionMatrixConfig.totalQuestions]
  · intro h2
    have h3 : n / 3 * 3 ≤ n := Nat.div_mul_le_self n 3
    rcases Nat.eq_zero_or_pos (n / 3) with hq | hq
    · have hn3 : n < 3 := by omega
      simp only [questionsMatrixFor, hq]
      refine ⟨by simp, by simp, ?_⟩
      simp only [Nat.cast_zero]
      have : max (1 : Int) 0 = 1 := by decide
      rw [this]
      omega
    · have hmax : max (1 : Int) ((n / 3 : Nat) : Int) = ((n / 3 : Nat) : Int) := by
        apply max_eq_right
        exact_mod_cast hq
      simp only [questionsMatrixFor, hmax]
      refine ⟨by exact_mod_cast Nat.zero_le _, by exact_mod_cast Nat.zero_le _, ?_⟩
      have : 2 * (n / 3) ≤ n := by omega
      push_cast
      omega

/-- Witness for the amended C10 at the MIXED type with 6 questions. -/
theorem questionsMatrixFor_spec_witness :
    (questionsMatrixFor QuestionType.mixed 6).totalQuestions = (6 : Int) ∧
    0 ≤ (questionsMatrixFor QuestionType.mixed 6).shortAnswerCount :=
  ⟨(questionsMatrixFor_spec QuestionType.mixed 6).1,
   ((questionsMatrixFor_spec QuestionType.mixed 6).2.2.2.2 (by norm_num)).2.2⟩

/-! ## Hydra Key Manager: claim C8 -/

/-- One `get_next_key` call when every DB key is available, within its RPM
budget and decryptable: it returns `dbKeys[current_index % N]` and advances
the round-robin index by one. -/
theorem getNextKey_all_available (s : HydraState)
    (hall : ∀ k ∈ s.dbKeys, k.isAvailableFlag = true ∧ k.rpmOk = true)
    (hsec : ∀ k ∈ s.dbKeys, k.secret.isSome = true)
    (hne : 0 < s.dbKeys.length) :
    ∃ raw, getNextKey s =
      .ok (.dbKey (s.dbKeys.get ⟨s.currentIndex % s.dbKeys.length,
          Nat.mod_lt _ hne⟩) raw,
        { s with currentIndex := s.currentIndex + 1 }) := by
  have hfilter : s.dbKeys.filter (fun k => k.isAvailableFlag && k.rpmOk) = s.dbKeys :=
    List.filter_eq_self.mpr (by
      intro k hk
      simp [(hall k hk).1, (hall k hk).2])
  have hidx : s.currentIndex % s.dbKeys.length < s.dbKeys.length :=
    Nat.mod_lt _ hne
  have hget : s.dbKeys[s.currentIndex % s.dbKeys.length]? =
      some (s.dbKeys.get ⟨s.currentIndex % s.dbKeys.length, hidx⟩) := by
    rw [List.getElem?_eq_getElem hidx]
    rfl
  have hmem : s.dbKeys.get ⟨s.currentIndex % s.dbKeys.length, hidx⟩ ∈ s.dbKeys :=
    List.get_mem _ _ hidx
  obtain ⟨raw, hraw⟩ := Option.isSome_iff_exists.mp (hsec _ hmem)
  refine ⟨raw, ?_⟩
  unfold getNextKey
  simp only [hfilter, hget, hraw]

/-- `n` error-free consecutive `get_next_key` calls under full availability:
the trace exists, the index advances by `n`, and the `j`-th selected
credential is `dbKeys[(start + j) % N]`. -/
theorem selectedKeys_all_available :
    ∀ (n : Nat) (s : HydraState),
      (∀ k ∈ s.dbKeys, k.isAvailableFlag = true ∧ k.rpmOk = true) →
      (∀ k ∈ s.dbKeys, k.secret.isSome = true) →
      0 < s.dbKeys.length →
      ∃ ks s', selectedKeys s n = some (ks, s') ∧
        s'.dbKeys = s.dbKeys ∧
        s'.currentIndex = s.currentIndex + n ∧
        ks.length = n ∧
        ∀ j, j < n →
          ks[j]? = s.dbKeys[(s.currentIndex + j) % s.dbKeys.length]?
  | 0, s, hall, hsec, hne =>
    ⟨[], s, rfl, rfl, (Nat.add_zero _).symm, rfl,
      fun j hj => absurd hj (Nat.not_lt_zero j)⟩
  | n + 1, s, hall, hsec, hne => by
    obtain ⟨raw, hstep⟩ := getNextKey_all_available s hall hsec hne
    obtain ⟨ks, s', hrun, hdb, hidx, hlen, hspec⟩ :=
      selectedKeys_all_available n { s with currentIndex := s.currentIndex + 1 }
        hall hsec hne
    refine ⟨s.dbKeys.get ⟨s.currentIndex % s.dbKeys.length, Nat.mod_lt _ hne⟩ :: ks,
      s', ?_, hdb, ?_, by simp [hlen], ?_⟩
    · unfold selectedKeys
      rw [hstep]
      dsimp only
      rw [hrun]
      rfl
    · rw [hidx]
      dsimp only
      omega
    · intro j hj
      match j with
      | 0 =>
        simp only [List.getElem?_cons_zero, Nat.add_zero]
        rw [List.getElem?_eq_getElem (Nat.mod_lt _ hne)]
        rfl
      | j + 1 =>
        simp only [List.getElem?_cons_succ]
        have harith : s.currentIndex + 1 + j = s.currentIndex + (j + 1) := by omega
        rw [hspec j (by omega)]
        dsimp only
        rw [harith]

/-- C8: with `N` credentials that are all active, within budget and
decryptable (the DB key list is sorted ascending by `(priority, pk)` and
duplicate-free, and the availability set is unchanged between calls), `N`
consecutive error-free `get_next_key` calls return `N` pairwise-distinct
credentials following the ascending-priority list cyclically from the
current round-robin index, and the `(N+1)`-th call returns the first
credential again. -/
theorem hydra_round_robin (s : HydraState) (N : Nat)
    (hN : s.dbKeys.length = N) (hpos : 0 < N)
    (hsorted : s.dbKeys.Pairwise fun a b =>
      a.priority < b.priority ∨ (a.priority = b.priority ∧ a.pk < b.pk))
    (hnodup : s.dbKeys.Nodup)
    (hall : ∀ k ∈ s.dbKeys, k.isAvailableFlag = true ∧ k.rpmOk = true)
    (hsec : ∀ k ∈ s.dbKeys, k.secret.isSome = true) :
    ∃ ks s', selectedKeys s (N + 1) = some (ks, s') ∧
      ks.length = N + 1 ∧
      (∀ j, j < N + 1 → ks[j]? = s.dbKeys[(s.currentIndex + j) % N]?) ∧
      (∀ j₁ j₂, j₁ < N → j₂ < N → j₁ ≠ j₂ → ks[j₁]? ≠ ks[j₂]?) ∧
      ks[N]? = ks[0]? := by
  obtain ⟨ks, s', hrun, _, _, hlen, hspec⟩ :=
    selectedKeys_all_available (N + 1) s hall hsec (by omega)
  have hspecN : ∀ j, j < N + 1 → ks[j]? = s.dbKeys[(s.currentIndex + j) % N]? := by
    intro j hj
    rw [hspec j hj, hN]
  refine ⟨ks, s', hrun, hlen, hspecN, ?_, ?_⟩
  · intro j₁ j₂ h₁ h₂ hne heq
    rw [hspecN j₁ (by omega), hspecN j₂ (by omega)] at heq
    have hm₁ : (s.currentIndex + j₁) % N < s.dbKeys.length := by
      rw [hN]; exact Nat.mod_lt _ hpos
    have heqidx : (s.currentIndex + j₁) % N = (s.currentIndex + j₂) % N :=
      List.getElem?_inj hm₁ hnodup heq
    have hcancel : j₁ % N = j₂ % N :=
      Nat.ModEq.add_left_cancel' s.currentIndex heqidx
    rw [Nat.mod_eq_of_lt h₁, Nat.mod_eq_of_lt h₂] at hcancel
    exact hne hcancel
  · rw [hspecN N (by omega), hspecN 0 (by omega), Nat.add_zero,
      Nat.add_mod_right]

/-! ## Gateway lemmas -/

/-- With the service enabled and a client initialized, `_generate_content`
is its retry loop. -/
theorem generateContent_eq_loop (env : GatewayEnv) (prompt : List Char)
    (maxTokens : Nat) (eff : GenEffects)
    (henable : checkServiceEnabled env.config = .ok ())
    (hready : env.clientReady = true) :
    generateContent env prompt maxTokens eff =
      generateContentLoop env (rawMaxAttempts env) (maxAttemptsOf env) 0 eff none := by
  unfold generateContent
  rw [henable, hready]
  rfl

/-- Under persistent rotate-classified failures (every attempt raises an
error matched by the in-loop quota or invalid-key classifiers), the retry
loop uses every remaining attempt, issues one provider call and one key
rotation per attempt, and finally applies the post-loop keyword set
(`quota`, `429`, `rate` only) to the last error message: a match raises the
typed rate-limit error, otherwise the bare last exception is re-raised. -/
theorem generateContentLoop_exhaustion (env : GatewayEnv) (mA : Nat)
    (hfail : ∀ n, ∃ m, env.oracle n = .error m ∧
      (isRateLimitMsg m = true ∨ isInvalidKeyMsg m = true)) :
    ∀ (r att : Nat) (eff : GenEffects) (last : Option GemErr),
      ∃ mlast, env.oracle (eff.providerCalls + r) = .error mlast ∧
        generateContentLoop env mA (r + 1) att eff last =
          ((if isQuotaAtEnd mlast = true then .error (.rateLimit rateLimitUserMessage)
            else .error (.raw mlast)),
           ⟨eff.providerCalls + (r + 1), eff.rotations + (r + 1)⟩)
  | 0, att, eff, last => by
    obtain ⟨m, hm, hclass⟩ := hfail eff.providerCalls
    refine ⟨m, by simpa using hm, ?_⟩
    unfold generateContentLoop
    rw [hm]
    dsimp only [GemErr.message]
    by_cases hrl : isRateLimitMsg m = true
    · rw [if_pos hrl]
      unfold generateContentLoop
      dsimp only [GemErr.message]
      split_ifs <;> simp
    · have hinv : isInvalidKeyMsg m = true := hclass.resolve_left hrl
      rw [if_neg hrl, if_pos hinv]
      unfold generateContentLoop
      dsimp only [GemErr.message]
      split_ifs <;> simp
  | r + 1, att, eff, last => by
    obtain ⟨m, hm, hclass⟩ := hfail eff.providerCalls
    obtain ⟨mlast, hmlast, hloop⟩ := generateContentLoop_exhaustion env mA hfail r
      (att + 1) ⟨eff.providerCalls + 1, eff.rotations + 1⟩ (some (.raw m))
    refine ⟨mlast, ?_, ?_⟩
    · rw [show eff.providerCalls + (r + 1) =
        (GenEffects.mk (eff.providerCalls + 1) (eff.rotations + 1)).providerCalls
          + r from by dsimp; omega]
      exact hmlast
    · unfold generateContentLoop
      rw [hm]
      dsimp only [GemErr.message]
      have hgoal :
          generateContentLoop env mA (r + 1) (att + 1)
              ⟨eff.providerCalls + 1, eff.rotations + 1⟩ (some (.raw m)) =
            ((if isQuotaAtEnd mlast = true
              then .error (.rateLimit rateLimitUserMessage)
              else .error (.raw mlast)),
             ⟨eff.providerCalls + (r + 1 + 1), eff.rotations + (r + 1 + 1)⟩) := by
        rw [hloop]
        dsimp only
        rw [show eff.providerCalls + 1 + (r + 1) = eff.providerCalls + (r + 1 + 1)
          from by omega,
          show eff.rotations + 1 + (r + 1) = eff.rotations + (r + 1 + 1) from by omega]
      by_cases hrl : isRateLimitMsg m = true
      · rw [if_pos hrl]
        exact hgoal
      · have hinv : isInvalidKeyMsg m = true := hclass.resolve_left hrl
        rw [if_neg hrl, if_pos hinv]
        exact hgoal

/-- `_generate_content` under persistent rotate-classified failures: all
`max(max_attempts, 1)` attempts are used, and the outcome is decided by the
post-loop keyword set on the last failure message. -/
theorem generateContent_exhaustion (env : GatewayEnv) (prompt : List Char)
    (maxTokens : Nat) (eff : GenEffects)
    (henable : checkServiceEnabled env.config = .ok ())
    (hready : env.clientReady = true)
    (hfail : ∀ n, ∃ m, env.oracle n = .error m ∧
      (isRateLimitMsg m = true ∨ isInvalidKeyMsg m = true)) :
    ∃ mlast, env.oracle (eff.providerCalls + (maxAttemptsOf env - 1)) = .error mlast ∧
      generateContent env prompt maxTokens eff =
        ((if isQuotaAtEnd mlast = true then .error (.rateLimit rateLimitUserMessage)
          else .error (.raw mlast)),
         ⟨eff.providerCalls + maxAttemptsOf env, eff.rotations + maxAttemptsOf env⟩) := by
  have hA : 1 ≤ maxAttemptsOf env := le_max_right _ 1
  obtain ⟨a, ha⟩ : ∃ a, maxAttemptsOf env = a + 1 := ⟨maxAttemptsOf env - 1, by omega⟩
  obtain ⟨mlast, hmlast, hloop⟩ :=
    generateContentLoop_exhaustion env (rawMaxAttempts env) hfail a 0 eff none
  refine ⟨mlast, ?_, ?_⟩
  · rw [show eff.providerCalls + (maxAttemptsOf env - 1) = eff.providerCalls + a
      from by omega]
    exact hmlast
  · rw [generateContent_eq_loop env prompt maxTokens eff henable hready, ha, hloop]

/-- When every provider attempt raises (total failure), `_generate_content`
never returns text: the call ends in some exception. -/
theorem generateContentLoop_all_fail (env : GatewayEnv) (mA : Nat)
    (hfail : ∀ n m, env.oracle n ≠ .ok m) :
    ∀ (r att : Nat) (eff : GenEffects) (last : Option GemErr),
      ∃ e eff', generateContentLoop env mA r att eff last = (.error e, eff')
  | 0, att, eff, last => by
    unfold generateContentLoop
    match last with
    | some e =>
      dsimp only
      by_cases hq : isQuotaAtEnd e.message = true
      · rw [if_pos hq]; exact ⟨_, eff, rfl⟩
      · rw [if_neg hq]; exact ⟨e, eff, rfl⟩
    | none => exact ⟨_, eff, rfl⟩
  | r + 1, att, eff, last => by
    match hor : env.oracle eff.providerCalls with
    | .ok t => exact absurd hor (hfail _ t)
    | .error m =>
      unfold generateContentLoop
      rw [hor]
      dsimp only [GemErr.message]
      by_cases hrl : isRateLimitMsg m = true
      · rw [if_pos hrl]
        exact generateContentLoop_all_fail env mA hfail r (att + 1) _ _
      · rw [if_neg hrl]
        by_cases hinv : isInvalidKeyMsg m = true
        · rw [if_pos hinv]
          exact generateContentLoop_all_fail env mA hfail r (att + 1) _ _
        · rw [if_neg hinv]
          by_cases hlt : att < mA - 1
          · rw [if_pos hlt]
            exact generateContentLoop_all_fail env mA hfail r (att + 1) _ _
          · rw [if_neg hlt]
            exact ⟨_, _, rfl⟩

/-- Witness for C8 with two fully-available credentials and round-robin
index 0: the three-call trace exists with the claimed properties. -/
theorem hydra_round_robin_witness :
    ∃ ks s',
      selectedKeys ⟨[⟨1, 1, true, true, some "kA"⟩, ⟨2, 2, true, true, some "kB"⟩],
        0, [], 0⟩ (2 + 1) = some (ks, s') ∧
      ks.length = 2 + 1 ∧
      (∀ j, j < 2 + 1 →
        ks[j]? = [APIKey.mk 1 1 true true (some "kA"),
          APIKey.mk 2 2 true true (some "kB")][(0 + j) % 2]?) ∧
      (∀ j₁ j₂, j₁ < 2 → j₂ < 2 → j₁ ≠ j₂ → ks[j₁]? ≠ ks[j₂]?) ∧
      ks[2]? = ks[0]? :=
  hydra_round_robin
    ⟨[⟨1, 1, true, true, some "kA"⟩, ⟨2, 2, true, true, some "kB"⟩], 0, [], 0⟩ 2
    (by decide) (by decide) (by decide) (by decide) (by decide) (by decide)

/-! ## Disabled-service lemmas and claim C1 -/

theorem generateContent_disabled (env : GatewayEnv) (c : AIConfiguration)
    (hc : env.config = some c) (hdis : c.isServiceEnabled = false)
    (prompt : List Char) (maxTokens : Nat) (eff : GenEffects) :
    generateContent env prompt maxTokens eff =
      (.error (.serviceDisabled (disabledMessage c)), eff) := by
  unfold generateContent checkServiceEnabled
  rw [hc]
  dsimp only
  rw [hdis]
  rfl

theorem generateSingleSummary_disabled (env : GatewayEnv) (c : AIConfiguration)
    (hc : env.config = some c) (hdis : c.isServiceEnabled = false)
    (text : List Char) (maxLength : Nat) (userNotes : List Char)
    (eff : GenEffects) :
    generateSingleSummary env text maxLength userNotes eff =
      (.ok (fallbackSummary text maxLength), eff) := by
  unfold generateSingleSummary
  rw [generateContent_disabled env c hc hdis]
  rfl

theorem summaryPartialsLoop_disabled (env : GatewayEnv) (c : AIConfiguration)
    (hc : env.config = some c) (hdis : c.isServiceEnabled = false)
    (total : Nat) (userNotes : List Char) :
    ∀ (chunks : List (List Char)) (i : Nat) (acc : List (List Char))
      (eff : GenEffects),
      ∃ ps, summaryPartialsLoop env total userNotes i chunks acc eff = (.ok ps, eff)
  | [], i, acc, eff => ⟨acc, rfl⟩
  | chunk :: rest, i, acc, eff => by
    obtain ⟨ps, hps⟩ := summaryPartialsLoop_disabled env c hc hdis total userNotes
      rest (i + 1) (acc ++ [fallbackSummary chunk 200]) eff
    refine ⟨ps, ?_⟩
    unfold summaryPartialsLoop
    rw [generateSingleSummary_disabled env c hc hdis]
    exact hps

theorem generateSummary_disabled (env : GatewayEnv) (c : AIConfiguration)
    (hc : env.config = some c) (hdis : c.isServiceEnabled = false)
    (text : List Char) (maxLength : Nat) (userNotes : List Char)
    (eff : GenEffects) :
    ∃ s, generateSummary env text maxLength userNotes eff = (.ok s, eff) := by
  unfold generateSummary
  dsimp only
  by_cases hch : (chunkText (envChunkSize env) (envChunkOverlap env) text).length ≤ 1
  · rw [if_pos hch]
    exact ⟨_, generateSingleSummary_disabled env c hc hdis text maxLength userNotes eff⟩
  · rw [if_neg hch]
    obtain ⟨ps, hps⟩ := summaryPartialsLoop_disabled env c hc hdis
      (chunkText (envChunkSize env) (envChunkOverlap env) text).length userNotes
      (chunkText (envChunkSize env) (envChunkOverlap env) text) 0 [] eff
    rw [hps]
    dsimp only
    by_cases hempty : ps = []
    · rw [if_pos hempty]
      exact ⟨_, rfl⟩
    · rw [if_neg hempty]
      exact ⟨_, generateSingleSummary_disabled env c hc hdis _ maxLength _ eff⟩

theorem generateQuestionsMatrix_disabled (env : GatewayEnv) (c : AIConfiguration)
    (hc : env.config = some c) (hdis : c.isServiceEnabled = false)
    (text : List Char) (matrix : QuestionMatrixConfig) (userNotes : List Char)
    (eff : GenEffects) :
    ∃ qs, generateQuestionsMatrix env text matrix userNotes eff = (.ok qs, eff) := by
  unfold generateQuestionsMatrix
  by_cases h0 : matrix.totalQuestions = 0
  · rw [if_pos h0]
    exact ⟨[], rfl⟩
  · rw [if_neg h0]
    dsimp only
    rw [generateContent_disabled env c hc hdis]
    exact ⟨_, rfl⟩

theorem askDocument_disabled (env : GatewayEnv) (c : AIConfiguration)
    (hc : env.config = some c) (hdis : c.isServiceEnabled = false)
    (text question userNotes : List Char) (eff : GenEffects) :
    askDocument env text question userNotes eff = (.ok askDocumentApology, eff) := by
  unfold askDocument
  dsimp only
  rw [generateContent_disabled env c hc hdis]
  rfl

/-- C1: the claim says every Gateway operation itself raises
`GeminiServiceDisabledError`; in the code the public operations catch it as
a `GeminiError`: with the service disabled, `generate_summary` returns the
extractive fallback `"ab."` instead of raising the disabled error with the
administrator message. -/
theorem serviceDisabled_raise_counterexample :
    (generateSummary disabledEnv (lit "ab") 500 [] noEffects).1 = .ok (lit "ab.") ∧
    (Except.ok (lit "ab.") : Except GemErr (List Char)) ≠
      .error (.serviceDisabled "الخدمة متوقفة للصيانة") := by decide

/-- C1 (amended): with the admin flag off, the disabled check fires inside
`_generate_content` before any provider call or key rotation — it raises
`GeminiServiceDisabledError` carrying the administrator-supplied message —
but the public operations (summarize, question-matrix generation, document
Q&A) catch it as a `GeminiError` and return non-AI fallback values, with
zero provider calls and zero key rotations (the effect counters are
unchanged, so no quota is consumed), instead of raising. -/
theorem serviceDisabled_shortcircuit (env : GatewayEnv) (c : AIConfiguration)
    (hc : env.config = some c) (hdis : c.isServiceEnabled = false)
    (prompt text question userNotes : List Char) (maxTokens maxLength : Nat)
    (matrix : QuestionMatrixConfig) (eff : GenEffects) :
    generateContent env prompt maxTokens eff =
      (.error (.serviceDisabled (disabledMessage c)), eff) ∧
    (∃ s, generateSummary env text maxLength userNotes eff = (.ok s, eff)) ∧
    (∃ qs, generateQuestionsMatrix env text matrix userNotes eff = (.ok qs, eff)) ∧
    askDocument env text question userNotes eff = (.ok askDocumentApology, eff) :=
  ⟨generateContent_disabled env c hc hdis prompt maxTokens eff,
   generateSummary_disabled env c hc hdis text maxLength userNotes eff,
   generateQuestionsMatrix_disabled env c hc hdis text matrix userNotes eff,
   askDocument_disabled env c hc hdis text question userNotes eff⟩

/-- Witness for the amended C1 at the concrete disabled environment. -/
theorem serviceDisabled_shortcircuit_witness :
    generateContent disabledEnv [] 100 noEffects =
      (.error (.serviceDisabled (disabledMessage
        ⟨false, "الخدمة متوقفة للصيانة", 30000, 500, 2000, "gemini-2.5-flash"⟩)),
       noEffects) ∧
    (∃ s, generateSummary disabledEnv (lit "ab") 500 [] noEffects =
      (.ok s, noEffects)) :=
  ⟨(serviceDisabled_shortcircuit disabledEnv _ rfl rfl [] (lit "ab") [] [] 100 500
      {} noEffects).1,
   (serviceDisabled_shortcircuit disabledEnv _ rfl rfl [] (lit "ab") [] [] 100 500
      {} noEffects).2.1⟩

/-! ## Claim C2 -/

/-- C2: with every configured credential failing on quota, `summarize()`
does not raise `GeminiRateLimitError`: the typed error is caught inside
`_generate_single_summary` (an `except GeminiError`) and the extractive
fallback `"hello."` is returned instead. -/
theorem summarize_quota_raise_counterexample :
    (generateSummary quotaEnv (lit "hello") 500 [] noEffects).1 =
      .ok (lit "hello.") ∧
    (Except.ok (lit "hello.") : Except GemErr (List Char)) ≠
      .error (.rateLimit rateLimitUserMessage) := by decide

/-- C2 (amended): when every attempt of a provider call fails with a
quota-classified error, the inner `_generate_content` raises
`GeminiRateLimitError` with the "try again" message — but `generate_summary`
catches it as a `GeminiError` and returns the extractive fallback summary
instead of raising (stated for texts that chunk into at most one piece). -/
theorem summarize_quota_exhaustion (env : GatewayEnv) (text userNotes : List Char)
    (maxLength : Nat) (eff : GenEffects)
    (henable : checkServiceEnabled env.config = .ok ())
    (hready : env.clientReady = true)
    (hq : ∀ n, ∃ m, env.oracle n = .error m ∧ isRateLimitMsg m = true ∧
      isQuotaAtEnd m = true)
    (hchunks : (chunkText (envChunkSize env) (envChunkOverlap env) text).length ≤ 1) :
    (∀ prompt maxTokens, (generateContent env prompt maxTokens eff).1 =
      .error (.rateLimit rateLimitUserMessage)) ∧
    (generateSummary env text maxLength userNotes eff).1 =
      .ok (fallbackSummary text maxLength) := by
  have hfail : ∀ n, ∃ m, env.oracle n = .error m ∧
      (isRateLimitMsg m = true ∨ isInvalidKeyMsg m = true) := by
    intro n
    obtain ⟨m, hm, hr, _⟩ := hq n
    exact ⟨m, hm, Or.inl hr⟩
  have hcontent : ∀ (prompt : List Char) (maxTokens : Nat) (eff' : GenEffects),
      generateContent env prompt maxTokens eff' =
        (.error (.rateLimit rateLimitUserMessage),
         ⟨eff'.providerCalls + maxAttemptsOf env,
          eff'.rotations + maxAttemptsOf env⟩) := by
    intro prompt maxTokens eff'
    obtain ⟨mlast, hmlast, hres⟩ :=
      generateContent_exhaustion env prompt maxTokens eff' henable hready hfail
    obtain ⟨m', hm', _, hqa⟩ := hq (eff'.providerCalls + (maxAttemptsOf env - 1))
    rw [hm'] at hmlast
    injection hmlast with hmeq
    rw [hres, if_pos (hmeq ▸ hqa)]
  refine ⟨fun prompt maxTokens => by rw [hcontent], ?_⟩
  unfold generateSummary
  dsimp only
  rw [if_pos hchunks]
  unfold generateSingleSummary
  rw [hcontent]
  rfl

/-- Witness for the amended C2 at the all-quota environment. -/
theorem summarize_quota_exhaustion_witness :
    (generateSummary quotaEnv (lit "hello") 500 [] noEffects).1 =
      .ok (fallbackSummary (lit "hello") 500) :=
  (summarize_quota_exhaustion quotaEnv (lit "hello") [] 500 noEffects rfl rfl
    (fun _ => ⟨"429 quota exceeded", rfl, by decide, by decide⟩) (by decide)).2

/-! ## Claim C3 -/

/-- C3: on total provider failure ending in a quota exhaustion,
`generate_questions_matrix` does not surface an error — it returns the
fabricated placeholder question list (records not produced by the
provider), contradicting the claim. -/
theorem questions_fabricated_counterexample :
    (generateQuestionsMatrix quotaEnv (lit "ab")
      { mcqCount := 1, trueFalseCount := 1, shortAnswerCount := 0 } []
      noEffects).1 = .ok (fallbackQuestions 2) ∧
    fallbackQuestions 2 ≠ [] := by decide

/-- C3 (amended): when every provider attempt fails and the requested total
is nonzero, `generate_questions_matrix` never returns provider-produced
records: it either returns exactly the one fabricated placeholder question
(when the final exception is a `GeminiError`, e.g. quota exhaustion) or
propagates the bare non-`GeminiError` last exception.  The spec's
"no fabrication" guarantee fails in the first case. -/
theorem questions_total_failure (env : GatewayEnv) (text userNotes : List Char)
    (matrix : QuestionMatrixConfig) (eff : GenEffects)
    (henable : checkServiceEnabled env.config = .ok ())
    (hready : env.clientReady = true)
    (hfail : ∀ n m, env.oracle n ≠ .ok m)
    (h0 : matrix.totalQuestions ≠ 0) :
    (generateQuestionsMatrix env text matrix userNotes eff).1 =
        .ok (fallbackQuestions matrix.totalQuestions) ∨
    (∃ m, (generateQuestionsMatrix env text matrix userNotes eff).1 =
        .error (.raw m)) := by
  obtain ⟨e, eff', hloop⟩ := generateContentLoop_all_fail env (rawMaxAttempts env)
    hfail (maxAttemptsOf env) 0 eff none
  have hcontent : ∀ (prompt : List Char) (maxTokens : Nat),
      generateContent env prompt maxTokens eff = (.error e, eff') := by
    intro prompt maxTokens
    rw [generateContent_eq_loop env prompt maxTokens eff henable hready]
    exact hloop
  unfold generateQuestionsMatrix
  rw [if_neg h0]
  dsimp only
  rw [hcontent]
  dsimp only
  by_cases hg : isGeminiErr e = true
  · rw [if_pos hg]
    exact Or.inl rfl
  · rw [if_neg hg]
    match e, hg with
    | .raw m, _ => exact Or.inr ⟨m, rfl⟩

/-- Witness for the amended C3 at the all-quota environment. -/
theorem questions_total_failure_witness :
    (generateQuestionsMatrix quotaEnv (lit "ab")
        { mcqCount := 1, trueFalseCount := 1, shortAnswerCount := 0 } []
        noEffects).1 =
      .ok (fallbackQuestions
        ({ mcqCount := 1, trueFalseCount := 1, shortAnswerCount := 0 }
          : QuestionMatrixConfig).totalQuestions) ∨
    (∃ m, (generateQuestionsMatrix quotaEnv (lit "ab")
        { mcqCount := 1, trueFalseCount := 1, shortAnswerCount := 0 } []
        noEffects).1 = .error (.raw m)) :=
  questions_total_failure quotaEnv (lit "ab") []
    { mcqCount := 1, trueFalseCount := 1, shortAnswerCount := 0 } noEffects
    rfl rfl (fun _ _ h => nomatch h) (by decide)

/-! ## Claim C4 -/

/-- C4: the claim predicts exactly one attempt with zero available keys
(`max(min(0, cap), 1) = 1`), but the code falls back to `MAX_RETRIES = 3`
attempts when `total_keys == 0` and a client is still initialized. -/
theorem attempts_zero_keys_counterexample :
    (generateContent zeroKeysEnv [] 100 noEffects).2.providerCalls = 3 ∧
    max (min zeroKeysEnv.totalKeys MAX_RETRIES) 1 = 1 ∧ (3 : Nat) ≠ 1 := by decide

/-- C4 (amended): a provider call that exhausts its retries makes exactly
`max(max_attempts, 1)` attempts, where `max_attempts` is
`min(total_keys, MAX_RETRIES)` when `total_keys > 0` — matching the claimed
`min(total_available_keys, fixed_retry_cap)` clamped to at least 1 — but is
the full `MAX_RETRIES = 3` (not 1) when `total_keys = 0`. -/
theorem generateContent_attempts (env : GatewayEnv) (prompt : List Char)
    (maxTokens : Nat) (eff : GenEffects)
    (henable : checkServiceEnabled env.config = .ok ())
    (hready : env.clientReady = true)
    (hq : ∀ n, ∃ m, env.oracle n = .error m ∧ isRateLimitMsg m = true ∧
      isQuotaAtEnd m = true) :
    (generateContent env prompt maxTokens eff).2.providerCalls =
      eff.providerCalls + maxAttemptsOf env ∧
    (0 < env.totalKeys →
      maxAttemptsOf env = max (min env.totalKeys MAX_RETRIES) 1) ∧
    (env.totalKeys = 0 → maxAttemptsOf env = MAX_RETRIES) := by
  refine ⟨?_, ?_, ?_⟩
  · have hfail : ∀ n, ∃ m, env.oracle n = .error m ∧
        (isRateLimitMsg m = true ∨ isInvalidKeyMsg m = true) := by
      intro n
      obtain ⟨m, hm, hr, _⟩ := hq n
      exact ⟨m, hm, Or.inl hr⟩
    obtain ⟨mlast, _, hres⟩ :=
      generateContent_exhaustion env prompt maxTokens eff henable hready hfail
    rw [hres]
  · intro hpos
    unfold maxAttemptsOf rawMaxAttempts
    rw [if_pos hpos]
  · intro hzero
    unfold maxAttemptsOf rawMaxAttempts
    rw [if_neg (by omega)]
    decide

/-- Witness for the amended C4 at the three-key all-quota environment. -/
theorem generateContent_attempts_witness :
    (generateContent quotaEnv [] 100 noEffects).2.providerCalls =
      noEffects.providerCalls + maxAttemptsOf quotaEnv :=
  (generateContent_attempts quotaEnv [] 100 noEffects rfl rfl
    (fun _ => ⟨"429 quota exceeded", rfl, by decide, by decide⟩)).1

/-! ## Claim C5 -/

/-- C5: the claim says the post-exhaustion rate-limit decision uses the same
keyword set as the in-loop classifier (including `resource_exhausted`), but
the post-loop set is only `quota/429/rate`: a run whose failures all read
`resource_exhausted` is quota-classified in the loop yet re-raises the bare
last error instead of `GeminiRateLimitError`. -/
theorem exhaustion_keywords_counterexample :
    isRateLimitMsg "resource_exhausted" = true ∧
    (generateContent resourceEnv [] 100 noEffects).1 =
      .error (.raw "resource_exhausted") ∧
    (generateContent resourceEnv [] 100 noEffects).1 ≠
      .error (.rateLimit rateLimitUserMessage) := by decide

/-- C5 (amended): when a provider call exhausts all attempts on
rotate-classified failures, it raises `GeminiRateLimitError` if and only if
the *last* failure message matches the narrower post-loop keyword set
(`quota`, `429`, `rate` — without `resource_exhausted`); otherwise it
re-raises the last error unchanged. -/
theorem exhaustion_rateLimit_iff (env : GatewayEnv) (prompt : List Char)
    (maxTokens : Nat) (eff : GenEffects)
    (henable : checkServiceEnabled env.config = .ok ())
    (hready : env.clientReady = true)
    (hfail : ∀ n, ∃ m, env.oracle n = .error m ∧
      (isRateLimitMsg m = true ∨ isInvalidKeyMsg m = true)) :
    ∃ mlast, env.oracle (eff.providerCalls + (maxAttemptsOf env - 1)) =
        .error mlast ∧
      ((generateContent env prompt maxTokens eff).1 =
          .error (.rateLimit rateLimitUserMessage) ↔ isQuotaAtEnd mlast = true) ∧
      (isQuotaAtEnd mlast = false →
        (generateContent env prompt maxTokens eff).1 = .error (.raw mlast)) := by
  obtain ⟨mlast, hmlast, hres⟩ :=
    generateContent_exhaustion env prompt maxTokens eff henable hready hfail
  refine ⟨mlast, hmlast, ⟨?_, ?_⟩, ?_⟩
  · intro hresult
    by_cases hq : isQuotaAtEnd mlast = true
    · exact hq
    · exfalso
      rw [hres, if_neg hq] at hresult
      exact absurd hresult (by simp)
  · intro hq
    rw [hres, if_pos hq]
  · intro hqf
    rw [hres, if_neg (by simp [hqf])]

/-- Witness for the amended C5 at the `resource_exhausted` environment. -/
theorem exhaustion_rateLimit_iff_witness :
    ∃ mlast, resourceEnv.oracle
        (noEffects.providerCalls + (maxAttemptsOf resourceEnv - 1)) =
        .error mlast ∧
      ((generateContent resourceEnv [] 100 noEffects).1 =
          .error (.rateLimit rateLimitUserMessage) ↔ isQuotaAtEnd mlast = true) ∧
      (isQuotaAtEnd mlast = false →
        (generateContent resourceEnv [] 100 noEffects).1 =
          .error (.raw mlast)) :=
  exhaustion_rateLimit_iff resourceEnv [] 100 noEffects rfl rfl
    (fun _ => ⟨"resource_exhausted", rfl, Or.inl (by decide)⟩)

end SACM
